import Mathlib

/-!
Shallow embedding of `sweep_PR.py` (the pull-request sweeper).

The embedding follows the single source file `src/sweep_PR.py`.  The core
function `cherryPickPr` is modelled as a pure function from an environment
(`Env`: the change record as retrieved from git/GitHub) and a world of
external-call outcomes (`World`) to a `RunResult` carrying the emitted
effect trace, the set of branches swept successfully, the failure records
and whether an uncaught exception escaped.

Python-specific semantics that matter here and are modelled faithfully:
* `str` vs `bytes`: `"x".encode("ascii", "replace")` produces a `bytes`
  value, and in Python 3 `bytes == str` is always `False`.  This is the
  comparison performed between the exclusion entries (line 257 of the
  source) and target branch names (line 318).
* `re.compile` on a malformed pattern raises `re.error`; the call at
  line 283 of the source is not guarded by any `try`, so the exception
  propagates out of `cherryPickPr`.
* `label.split(" ")` / `label.split(":")` keep empty fields, as
  `String.splitOn` does.
-/

/-- Python runtime values relevant to the exclusion-set comparison:
either a `str` or an ASCII `bytes` object (the content of the bytes is
kept as the underlying ASCII string).  Equality between the two
constructors is `False`, exactly as `bytes == str` in Python 3. -/

inductive PyVal where
  | str : String → PyVal
  | bytes : String → PyVal
deriving DecidableEq, Repr

/-- Model of `s.encode("ascii", "replace")` content: characters above
code point 127 are replaced by a question mark (code 63). -/

def asciiReplace (s : String) : String :=
  String.mk (s.data.map (fun c => if c.toNat ≤ 127 then c else Char.ofNat 63))

/-!
A small regular-expression engine modelling the subset of Python `re`
that the sweeper's rule patterns use (`re.match` anchored at the start:
literal characters, `.` which does not match a newline, postfix `*`,
and an optional leading `^` anchor which is redundant under `re.match`).
Every other metacharacter is rejected by the compiler, i.e. treated as a
malformed pattern; in particular `(` alone is malformed both here and in
Python (`re.error: missing ), unterminated subpattern`), which is what
the malformed-pattern claims exercise.
-/

inductive Re where
  | fail : Re
  | eps : Re
  | lit : Char → Re
  | dot : Re
  | seq : Re → Re → Re
  | alt : Re → Re → Re
  | star : Re → Re
deriving DecidableEq, Repr

/-- Does the expression accept the empty string? -/

def Re.nullable : Re → Bool
  | .fail => false
  | .eps => true
  | .lit _ => false
  | .dot => false
  | .seq a b => a.nullable && b.nullable
  | .alt a b => a.nullable || b.nullable
  | .star _ => true

/-- Brzozowski derivative.  `.dot` does not match a newline, as in
Python without `re.DOTALL`. -/

def Re.deriv : Re → Char → Re
  | .fail, _ => .fail
  | .eps, _ => .fail
  | .lit a, c => if a = c then .eps else .fail
  | .dot, c => if c = Char.ofNat 10 then .fail else .eps
  | .seq a b, c =>
      if a.nullable then .alt (.seq (a.deriv c) b) (b.deriv c)
      else .seq (a.deriv c) b
  | .alt a b, c => .alt (a.deriv c) (b.deriv c)
  | .star a, c => .seq (a.deriv c) (.star a)

/-- Does the expression match some prefix of the character list?  This is
the acceptance notion of Python's `re.match` (anchored at the start,
not required to span the whole string). -/

def Re.matchSome : Re → List Char → Bool
  | r, [] => r.nullable
  | r, c :: cs => r.nullable || (r.deriv c).matchSome cs

/-- Truthiness of `re.match(pattern, s)` for a compiled pattern. -/

def Re.matchAtStart (r : Re) (s : String) : Bool :=
  r.matchSome s.data

/-- Metacharacters the engine does not support; a pattern containing one
is treated as malformed.  Codes: ( ) [ ] + ? ^ $ backslash | braces. -/

def reMeta : List Char :=
  [40, 41, 91, 93, 43, 63, 94, 36, 92, 124, 123, 125].map Char.ofNat

/-- One atom of the pattern: `.` or a literal character. -/

def reAtom (c : Char) : Re :=
  if c = Char.ofNat 46 then Re.dot else Re.lit c

/-- Sequential pattern compiler.  A `*` with no preceding atom is
malformed (Python: `nothing to repeat` / `multiple repeat`). -/

def compileSeq : List Char → Re → Option Re
  | [], acc => some acc
  | [c], acc =>
      if c = Char.ofNat 42 ∨ c ∈ reMeta then none
      else some (Re.seq acc (reAtom c))
  | c :: c2 :: rest, acc =>
      if c = Char.ofNat 42 ∨ c ∈ reMeta then none
      else if c2 = Char.ofNat 42 then
        compileSeq rest (Re.seq acc (Re.star (reAtom c)))
      else
        compileSeq (c2 :: rest) (Re.seq acc (reAtom c))

/-- Model of `re.compile`: `none` is a malformed pattern (`re.error`).
A leading `^` is consumed as the (redundant) anchor. -/

def compileRe (s : String) : Option Re :=
  match s.data with
  | [] => some Re.eps
  | c :: rest =>
      if c = Char.ofNat 94 then compileSeq rest Re.eps
      else compileSeq (c :: rest) Re.eps

/-- Guard of the rule loop (source lines 285-286):
`matches = [pattern.match(p) for p in affected]; if matches and all(matches)`.
True iff the changed-path list is non-empty and every path matches. -/

def ruleGuard (pkgs : List String) (p : Re) : Bool :=
  (!pkgs.isEmpty) && pkgs.all (fun s => p.matchAtStart s)

/-- Insertion into a Python-set modelled as a duplicate-free list. -/

def insertOne {α : Type} [DecidableEq α] (acc : List α) (x : α) : List α :=
  if x ∈ acc then acc else acc ++ [x]

/-- Model of `set.update`: insert every element of `xs`. -/

def insertAll {α : Type} [DecidableEq α] (acc : List α) (xs : List α) : List α :=
  xs.foldl insertOne acc

/-- Worker of the rule-resolution loop (source lines 281-290).  For each
`(rule, branches)` pair the pattern is compiled; a malformed pattern
raises `re.error`, modelled as `Except.error rule` — there is no guard
in the source, so the loop aborts there and the exception propagates. -/

def resolveRulesGo (pkgs : List String) :
    List (String × List String) → List String → Except String (List String)
  | [], acc => Except.ok acc
  | (rule, branches) :: rest, acc =>
      match compileRe rule with
      | none => Except.error rule
      | some p =>
          resolveRulesGo pkgs rest
            (if ruleGuard pkgs p then insertAll acc branches else acc)

/-- Rule resolution for one change record: the rule-derived target set,
or the uncaught `re.error` of the first malformed pattern reached. -/

def resolveRules (rules : List (String × List String)) (pkgs : List String) :
    Except String (List String) :=
  resolveRulesGo pkgs rules []

/-- Spec-side definition, written from the specification's words, for
comparison with the code:
"Final target set = (rule-derived ∪ explicit-inclusion) − exclusion."
All three sets are sets of branch-name strings. -/

def specFinalTargets (ruleDerived incl excl : List String) : List String :=
  (insertAll ruleDerived incl).filter (fun b => decide (b ∉ excl))

/-!
Label handling of the Target Set Composer (source lines 229-274).
-/

/-- Model of `s.startswith(pre)` over the character lists (structurally
recursive, so it evaluates inside the kernel). -/

def strStartsWith (s pre : String) : Bool :=
  pre.data.isPrefixOf s.data

/-- Python `s.split(sep)` for a one-character separator: splits at every
occurrence and keeps empty fields. -/

def splitOnChar (sep : Char) : List Char → List (List Char)
  | [] => [[]]
  | c :: rest =>
      let r := splitOnChar sep rest
      if c = sep then [] :: r
      else
        match r with
        | [] => [[c]]
        | g :: gs => (c :: g) :: gs

def pySplit1 (s : String) (sep : Char) : List String :=
  (splitOnChar sep s.data).map String.mk

/-- One pass of the label loop (source lines 246-274), processed in list
order.  `none` models the early `return` on a `sweptFrom:` label.  A
`sweep:from <b>` label adds the **bytes** value `b.encode("ascii",
"replace")` to the exclusion set (source line 257); a well-formed
`alsoTargeting:<b>` label adds the string `b` to the inclusion set, and
a value that splits into three or more fields is ignored (with a
warning in the source).  Note that `"alsoTargeting:".split(":")` has
exactly two fields, the second one empty, so the empty value is added. -/

def scanStep :
    List String → List PyVal → List String → Option (List PyVal × List String)
  | [], excl, incl => some (excl, incl)
  | l :: rest, excl, incl =>
      if strStartsWith l "sweptFrom:" then none
      else
        let excl1 :=
          if strStartsWith l "sweep:from " then
            match pySplit1 l (Char.ofNat 32) with
            | [_, b] => insertOne excl (PyVal.bytes (asciiReplace b))
            | _ => excl
          else excl
        let incl1 :=
          if strStartsWith l "alsoTargeting:" then
            match pySplit1 l (Char.ofNat 58) with
            | [_, b] => insertOne incl b
            | _ => incl
          else incl
        scanStep rest excl1 incl1

/-- The exclusion and inclusion sets derived from the labels, or `none`
when a `sweptFrom:` label aborts the processing of the record. -/

def scanLabels (labels : List String) : Option (List PyVal × List String) :=
  scanStep labels [] []

/-- The loop's exclusion test (source lines 317-320): compare each
exclusion entry against the `str` branch name with Python `==`.  Since
the exclusion entries are `bytes`, the comparison is cross-type. -/

def excludedTest (excl : List PyVal) (t : String) : Bool :=
  excl.any (fun e => e == PyVal.str t)

/-- Model of `re.search("Merge pull request #(\d+)", out)`: the value of
the first parenthesised digit group, scanning positions left to right. -/

def natOfDigits (ds : List Char) : Nat :=
  ds.foldl (fun n c => n * 10 + (c.toNat - 48)) 0

def prMarker : List Char := "Merge pull request #".data

def findPrIdAux : List Char → Option Nat
  | [] => none
  | c :: rest =>
      if prMarker.isPrefixOf (c :: rest) then
        let ds := ((c :: rest).drop prMarker.length).takeWhile Char.isDigit
        if ds.isEmpty then findPrIdAux rest else some (natOfDigits ds)
      else findPrIdAux rest

def findPrId (out : String) : Option Nat :=
  findPrIdAux out.data

/-- A single-quote character as a string (code 39). -/

def sQuote : String := String.mk [Char.ofNat 39]

/-- Characters `shlex.quote` treats as safe: word characters and
the characters at-sign, percent, plus, equals, colon, comma, dot,
slash, hyphen. -/

def shlexSafeChar (c : Char) : Bool :=
  c.isAlpha || c.isDigit ||
  c = Char.ofNat 95 || c = Char.ofNat 64 || c = Char.ofNat 37 ||
  c = Char.ofNat 43 || c = Char.ofNat 61 || c = Char.ofNat 58 ||
  c = Char.ofNat 44 || c = Char.ofNat 46 || c = Char.ofNat 47 ||
  c = Char.ofNat 45

/-- Model of `shlex.quote`. -/

def shlexQuote (s : String) : String :=
  if s = "" then sQuote ++ sQuote
  else if s.data.all shlexSafeChar then s
  else sQuote ++ (s.replace sQuote (sQuote ++ "\"" ++ sQuote ++ "\"" ++ sQuote)) ++ sQuote

/-- Model of `os.path.dirname` for the slash-separated project names used here
(`"owner/repo"` ↦ `"owner"`; no separator ↦ `""`). -/

def posixDirname (s : String) : String :=
  let parts := s.splitOn "/"
  if parts.length ≤ 1 then "" else String.intercalate "/" parts.dropLast

/-- Model of `os.path.basename` (`"origin/master"` ↦ `"master"`). -/

def posixBasename (s : String) : String :=
  ((s.splitOn "/").getLast?).getD ""

/-!
The environment of one `cherryPickPr` call and the outcomes of the
external collaborators.
-/

/-- Inputs of one `cherryPickPr` call.  The fields `release_notes`,
`original_pr_author`, `pr_author` and `orig_pr_title` are the results of
the pure regex extractions from the pull-request body and title (source
lines 202-227); no claim depends on these extractions, so their results
are inputs of the model. -/

structure Env where
  merge_commit : String
  source_branch : String
  project_name : String
  pr_project_name : String
  strategy : String
  dry_run : Bool
  rules : List (String × List String)
  gitShowOut : String
  labels : List String
  changedFiles : List String
  release_notes : String
  original_pr_author : String
  pr_author : String
  orig_pr_title : String
  gh_repository : String
  gh_run_id : String
  pr_html_url : String
deriving Repr

/-- Success or failure of each external call; per-branch outcomes are
functions of the target branch name.  The unguarded label-add calls of
the source (lines 449 and 487) are modelled as succeeding. -/

structure World where
  commitOk : Bool
  prOk : Bool
  createRefOk : String → Bool
  mergeOk : String → Bool
  cherryOk : String → Bool
  amendOk : String → Bool
  pushOk : String → Bool
  createPullOk : String → Bool
  issueOk : Bool
  issueLabelOk : Bool
  issueNumber : Nat
  commentOk : Bool

/-- The observable external calls of one run, in order.  Shell commands
run during publishing mutate the local checkout and are writes; `git
show` only reads the commit. -/

inductive Eff where
  | getCommit (sha : String)
  | gitShow (sha : String)
  | getPull (iid : Nat)
  | getUser (login : String)
  | getCommits (login : String)
  | getLabels
  | getFiles
  | setLabels (ls : List String)
  | createRef (refName target : String)
  | mergeCall (branch sha : String)
  | shell (cmd : String)
  | createPull (title body head base : String)
  | addPrLabel (base lbl : String)
  | addOriginLabel (lbl : String)
  | createIssue (title body assignee : String)
  | addIssueLabel (lbl : String)
  | createComment (body : String)
deriving DecidableEq, Repr

/-- Mutating effects: everything that changes the forge or the local
checkout. -/

def Eff.isWrite : Eff → Bool
  | .getCommit _ => false
  | .gitShow _ => false
  | .getPull _ => false
  | .getUser _ => false
  | .getCommits _ => false
  | .getLabels => false
  | .getFiles => false
  | .setLabels _ => true
  | .createRef _ _ => true
  | .mergeCall _ _ => true
  | .shell _ => true
  | .createPull _ _ _ _ => true
  | .addPrLabel _ _ => true
  | .addOriginLabel _ => true
  | .createIssue _ _ _ => true
  | .addIssueLabel _ => true
  | .createComment _ => true

/-- Retrieval of labels or commits, the only calls the frame claim C5
permits before an abort: `get_commit`, `git show`, `get_commits`
(commit retrieval) and `get_labels`. -/

def Eff.isLabelCommitRead : Eff → Bool
  | .getCommit _ => true
  | .gitShow _ => true
  | .getPull _ => false
  | .getUser _ => false
  | .getCommits _ => true
  | .getLabels => true
  | .getFiles => false
  | .setLabels _ => false
  | .createRef _ _ => false
  | .mergeCall _ _ => false
  | .shell _ => false
  | .createPull _ _ _ _ => false
  | .addPrLabel _ _ => false
  | .addOriginLabel _ => false
  | .createIssue _ _ _ => false
  | .addIssueLabel _ => false
  | .createComment _ => false

def Eff.isSetLabelsE : Eff → Bool
  | .setLabels _ => true
  | .getCommit _ => false
  | .gitShow _ => false
  | .getPull _ => false
  | .getUser _ => false
  | .getCommits _ => false
  | .getLabels => false
  | .getFiles => false
  | .createRef _ _ => false
  | .mergeCall _ _ => false
  | .shell _ => false
  | .createPull _ _ _ _ => false
  | .addPrLabel _ _ => false
  | .addOriginLabel _ => false
  | .createIssue _ _ _ => false
  | .addIssueLabel _ => false
  | .createComment _ => false

def Eff.isCreateComment : Eff → Bool
  | .createComment _ => true
  | .getCommit _ => false
  | .gitShow _ => false
  | .getPull _ => false
  | .getUser _ => false
  | .getCommits _ => false
  | .getLabels => false
  | .getFiles => false
  | .setLabels _ => false
  | .createRef _ _ => false
  | .mergeCall _ _ => false
  | .shell _ => false
  | .createPull _ _ _ _ => false
  | .addPrLabel _ _ => false
  | .addOriginLabel _ => false
  | .createIssue _ _ _ => false
  | .addIssueLabel _ => false

def Eff.isCreatePullE : Eff → Bool
  | .createPull _ _ _ _ => true
  | .getCommit _ => false
  | .gitShow _ => false
  | .getPull _ => false
  | .getUser _ => false
  | .getCommits _ => false
  | .getLabels => false
  | .getFiles => false
  | .setLabels _ => false
  | .createRef _ _ => false
  | .mergeCall _ _ => false
  | .shell _ => false
  | .addPrLabel _ _ => false
  | .addOriginLabel _ => false
  | .createIssue _ _ _ => false
  | .addIssueLabel _ => false
  | .createComment _ => false

/-!
The Branch Publisher (source lines 314-463).
-/

/-- Source line 330: the deterministic name of the new branch. -/

def cherryPickBranchName (mc t : String) : String :=
  "cherry-pick-2-" ++ mc ++ "-" ++ t

/-- Source line 385: the downstream request title. -/

def newPrTitleFor (env : Env) (t : String) : String :=
  "[sweep:" ++ (t.replace "rel-" "") ++ "] " ++ env.orig_pr_title

/-- Source lines 386-392: the downstream request body. -/

def bodyTextFor (env : Env) (prId : Nat) (t : String) : String :=
  "Sweep #" ++ toString prId ++ " `" ++ env.orig_pr_title ++ "` to `" ++
    t ++ "`.\n\n" ++
  "Adding original author @" ++ env.original_pr_author ++ " as watcher.\n\n" ++
  env.release_notes

/-- Source line 361: the amend command. -/

def amendCmd (env : Env) (prId : Nat) : String :=
  "git commit --amend -m " ++ sQuote ++ "sweep: #" ++ toString prId ++ " " ++
    env.orig_pr_title ++ sQuote ++ " --author=" ++ sQuote ++ env.pr_author ++ sQuote

/-- Source lines 396-416: the recovery instructions rendered when the
apply phase failed, joined with newlines as `"\n".join` does. -/

def fixerText (env : Env) (prId : Nat) (t : String) (body : String) : String :=
  "cherry-pick " ++ env.merge_commit ++ " into " ++ t ++ " failed" ++ "\n" ++
  "check merge conflicts on a local copy of this repository" ++ "\n" ++
  "```bash" ++ "\n" ++
  "git fetch upstream" ++ "\n" ++
  "git checkout upstream/" ++ shlexQuote t ++ " -b " ++
    shlexQuote (cherryPickBranchName env.merge_commit t) ++ "\n" ++
  "git cherry-pick -x -m 1 " ++ shlexQuote env.merge_commit ++ "\n" ++
  "# Fix the conflicts" ++ "\n" ++
  "git cherry-pick --continue" ++ "\n" ++
  "git commit --amend -m " ++
    shlexQuote ("sweep: #" ++ toString prId ++ " " ++ env.orig_pr_title) ++
    " --author=" ++ shlexQuote env.pr_author ++ "\n" ++
  "git push -u origin " ++
    shlexQuote (cherryPickBranchName env.merge_commit t) ++ "\n" ++
  "\n" ++
  "# If you have the GitHub CLI installed the PR can be made with" ++ "\n" ++
  "gh pr create \\" ++ "\n" ++
  "     --label " ++ shlexQuote ("sweep:from " ++ posixBasename env.source_branch) ++
    " \\" ++ "\n" ++
  "     --base " ++ shlexQuote t ++ " \\" ++ "\n" ++
  "     --repo " ++ shlexQuote env.project_name ++ " \\" ++ "\n" ++
  "     --title " ++ shlexQuote (newPrTitleFor env t) ++ " \\" ++ "\n" ++
  "     --body " ++ shlexQuote body ++ "\n" ++
  "```"

/-- Source lines 442-444: the recovery text when only the request
creation failed. -/

def pullFailText (env : Env) (t : String) : String :=
  "Failed to open the PR, try to open a PR from " ++
    posixDirname env.pr_project_name ++ ":" ++
    cherryPickBranchName env.merge_commit t ++ " to " ++ t

/-- Effects of the apply phase (source lines 344-383), entered only when
the ref creation succeeded.  The statuses of the two fetches and the
checkout are discarded by the source (`_, _, _ = ...`), so their
failures cannot influence anything.  On cherry-pick failure the source
runs `git cherry-pick --abort`.  An unknown strategy produces no apply
effects and fails. -/

def applyTrace (env : Env) (w : World) (prId : Nat) (t : String) : List Eff :=
  if env.strategy = "merge" then
    [Eff.mergeCall (cherryPickBranchName env.merge_commit t) env.merge_commit]
  else if env.strategy = "cherry-pick" then
    [Eff.shell "git fetch upstream", Eff.shell "git fetch origin",
     Eff.shell ("git checkout " ++ cherryPickBranchName env.merge_commit t),
     Eff.shell ("git cherry-pick -x -m 1 " ++ env.merge_commit)] ++
    (if w.cherryOk t then
      [Eff.shell (amendCmd env prId)] ++
      (if w.amendOk t then
        [Eff.shell ("git push origin " ++ cherryPickBranchName env.merge_commit t)]
       else [])
     else [Eff.shell "git cherry-pick --abort"])
  else []

/-- Failure of the apply phase for one branch under the chosen strategy
(given that the ref creation succeeded). -/

def branchFailed (env : Env) (w : World) (t : String) : Bool :=
  if env.strategy = "merge" then ! w.mergeOk t
  else if env.strategy = "cherry-pick" then
    ! (w.cherryOk t && w.amendOk t && w.pushOk t)
  else true

/-- Output of the publish loop: emitted effects, the `good_branches`
set and the `failed_branches` set of the source. -/

structure LoopOut where
  trace : List Eff
  good : List String
  failedRecs : List (String × String × String)
deriving DecidableEq, Repr

/-- One iteration of the publish loop (source lines 314-463) for target
branch `t`.  An excluded branch is skipped outright; otherwise the ref
creation, apply phase, and — only when nothing failed — the request
creation and provenance label run in order, each failure skipping the
remaining steps of this branch. -/

def publishBranch (env : Env) (w : World) (prId : Nat) (excl : List PyVal)
    (t : String) : LoopOut :=
  if excludedTest excl t then ⟨[], [], []⟩
  else
    let cpb := cherryPickBranchName env.merge_commit t
    let refTr := [Eff.createRef cpb t]
    let applyPart :=
      if w.createRefOk t then (applyTrace env w prId t, branchFailed env w t)
      else (([] : List Eff), true)
    let body := bodyTextFor env prId t
    if applyPart.2 then
      ⟨refTr ++ applyPart.1, [],
        [(t, env.merge_commit,
          fixerText env prId t (body ++ "\nCloses #@@@FAILED_ISSUE_ID@@@"))]⟩
    else
      let head := posixDirname env.pr_project_name ++ ":" ++ cpb
      let pullTr := [Eff.createPull (newPrTitleFor env t) body head t]
      if w.createPullOk t then
        ⟨refTr ++ applyPart.1 ++ pullTr ++
          [Eff.addPrLabel t ("sweep:from " ++ posixBasename env.source_branch)],
         [t], []⟩
      else
        ⟨refTr ++ applyPart.1 ++ pullTr, [], [(t, env.merge_commit, pullFailText env t)]⟩

/-- The publish loop over the target branches in order. -/

def publishLoop (env : Env) (w : World) (prId : Nat) (excl : List PyVal) :
    List String → LoopOut
  | [] => ⟨[], [], []⟩
  | t :: ts =>
      let one := publishBranch env w prId excl t
      let rest := publishLoop env w prId excl ts
      ⟨one.trace ++ rest.trace, one.good ++ rest.good,
       one.failedRecs ++ rest.failedRecs⟩

/-!
The Sweep Reporter (source lines 465-511).
-/

/-- Insertion of a string into a sorted list using the order on
strings. -/

def sortInsert (x : String) : List String → List String
  | [] => [x]
  | y :: ys => if y < x then y :: sortInsert x ys else x :: y :: ys

/-- Model of Python `sorted` on a list of branch names. -/

def sortStrings : List String → List String
  | [] => []
  | x :: xs => sortInsert x (sortStrings xs)

/-- The summary comment lines (source lines 467-485). -/

def commentLines (env : Env) (good : List String)
    (failedRecs : List (String × String × String)) : List String :=
  ["**Sweep summary**\n",
   "Sweep ran in https://github.com/" ++ env.gh_repository ++
     "/actions/runs/" ++ env.gh_run_id] ++
  (if good.isEmpty then []
   else ["\n### Successful:"] ++ (sortStrings good).map (fun x => "* " ++ x)) ++
  (if failedRecs.isEmpty then []
   else ["\n### Failed:"] ++
     (failedRecs.map (fun r =>
       ["* **" ++ r.1 ++ "**", "  " ++ r.2.2.replace "\n" "\n  "])).flatten)

/-- Effects of the reporter (source lines 465-511).  Nothing when the
target set was empty.  When any branch failed, the `sweep:failed` label
is added to the originating request (outside the `try`, modelled as
succeeding), then inside the `try` a tracking issue is created, labelled
and spliced into the body, and finally the comment is posted; the first
failing call inside the `try` jumps to the `except` handler, which only
logs.  Note the source reuses the name `failed_branches` for the loop
variable at line 481; after the loop it holds the last (non-empty)
recovery text, so the truthiness tests on it agree with testing the
set for non-emptiness, which is what this model does. -/

def reporterTrace (env : Env) (w : World) (targets good : List String)
    (failedRecs : List (String × String × String)) : List Eff :=
  if targets.isEmpty then []
  else
    let originLab :=
      if failedRecs.isEmpty then [] else [Eff.addOriginLabel "sweep:failed"]
    let pr_body := String.intercalate "\n" (commentLines env good failedRecs)
    let issue_title := "Sweep failed for PR " ++ env.orig_pr_title
    let tryTr :=
      if failedRecs.isEmpty then [Eff.createComment pr_body]
      else
        [Eff.createIssue issue_title (issue_title ++ "\nSee " ++ env.pr_html_url)
          env.original_pr_author] ++
        (if w.issueOk then
          [Eff.addIssueLabel "sweep:failed"] ++
          (if w.issueLabelOk then
            [Eff.createComment
              (pr_body.replace "@@@FAILED_ISSUE_ID@@@" (toString w.issueNumber))]
           else [])
         else [])
    originLab ++ tryTr

/-!
The whole of `cherryPickPr` (source lines 153-512).
-/

/-- Result of one `cherryPickPr` call: the effect trace, the pattern of
an uncaught `re.error` when one escaped (`none` means the function
returned normally), and the final `good_branches` / `failed_branches`
sets. -/

structure RunResult where
  trace : List Eff
  raised : Option String
  good : List String
  failedRecs : List (String × String × String)
deriving DecidableEq, Repr

/-- An early `return` of the source: normal termination with the trace
emitted so far and empty outcome sets. -/

def abortResult (tr : List Eff) : RunResult := ⟨tr, none, [], []⟩

/-- The core orchestration function, following the source line by line:
retrieve the merge commit and the originating request, honour the
`sweep:done` / `sweep:ignore` / `sweptFrom:` abort labels, derive the
exclusion and inclusion sets from the labels, resolve the rule table
against the changed files (a malformed pattern raises), compose the
target set and the disposition label, stop before the label write in
dry-run mode, publish to every non-excluded target branch, and report. -/

def cherryPickPr (env : Env) (w : World) : RunResult :=
  let tr0 := [Eff.getCommit env.merge_commit]
  if ! w.commitOk then abortResult tr0
  else
    let tr1 := tr0 ++ [Eff.gitShow env.merge_commit]
    match findPrId env.gitShowOut with
    | none => abortResult tr1
    | some prId =>
      let tr2 := tr1 ++ [Eff.getPull prId]
      if ! w.prOk then abortResult tr2
      else
        let tr3 := tr2 ++ [Eff.getUser env.original_pr_author,
                           Eff.getCommits env.original_pr_author, Eff.getLabels]
        if "sweep:done" ∈ env.labels then abortResult tr3
        else if "sweep:ignore" ∈ env.labels then abortResult tr3
        else
          match scanLabels env.labels with
          | none => abortResult tr3
          | some (excl, incl) =>
            let tr4 := tr3 ++ [Eff.getFiles]
            match resolveRules env.rules env.changedFiles with
            | Except.error r => ⟨tr4, some r, [], []⟩
            | Except.ok ruleTargets =>
              let target_branches := insertAll incl ruleTargets
              let labels2 := insertOne env.labels
                (if target_branches.isEmpty then "sweep:ignore" else "sweep:done")
              if env.dry_run then abortResult tr4
              else
                let tr5 := tr4 ++ [Eff.setLabels labels2]
                let lp := publishLoop env w prId excl target_branches
                let trR := reporterTrace env w target_branches lp.good lp.failedRecs
                ⟨tr5 ++ lp.trace ++ trR, none, lp.good, lp.failedRecs⟩

/-- Whether a rule's pattern compiles and its guard accepts the changed
paths. -/

def ruleApplies (pkgs : List String) (rule : String) : Bool :=
  match compileRe rule with
  | some p => ruleGuard pkgs p
  | none => false

/-- The branch succeeds: not excluded, ref created, apply succeeded and
the request was created. -/

def goodPred (env : Env) (w : World) (excl : List PyVal) (t : String) : Bool :=
  !excludedTest excl t && w.createRefOk t && !branchFailed env w t &&
    w.createPullOk t

/-- The branch is recorded as failed: not excluded, and some publish
step failed. -/

def failPred (env : Env) (w : World) (excl : List PyVal) (t : String) : Bool :=
  !excludedTest excl t &&
    (!(w.createRefOk t) || branchFailed env w t || !(w.createPullOk t))

/-- The recovery text recorded for a failed branch. -/

def recTextFor (env : Env) (w : World) (prId : Nat) (t : String) : String :=
  if !(w.createRefOk t) || branchFailed env w t then
    fixerText env prId t
      (bodyTextFor env prId t ++ "\nCloses #@@@FAILED_ISSUE_ID@@@")
  else pullFailText env t

/-- The string `mid` occurs as a contiguous substring of `s`. -/

def strHasSub (s mid : String) : Prop := mid.data <:+: s.data

/-- A concrete change-record environment for the concrete-input
theorems; the label set varies per theorem. -/

def envBase : Env := {
  merge_commit := "abc123",
  source_branch := "upstream/master",
  project_name := "own/proj",
  pr_project_name := "bot/proj",
  strategy := "cherry-pick",
  dry_run := false,
  rules := [],
  gitShowOut := "commit abc123\nMerge pull request #7 from own/branch",
  labels := [],
  changedFiles := [],
  release_notes := "",
  original_pr_author := "alice",
  pr_author := "Alice A <a@b.c>",
  orig_pr_title := "Fix X",
  gh_repository := "own/proj",
  gh_run_id := "1",
  pr_html_url := "https://github.com/own/proj/pull/7" }

/-- A world in which every external call succeeds. -/

def wOk : World := {
  commitOk := true, prOk := true,
  createRefOk := fun _ => true, mergeOk := fun _ => true,
  cherryOk := fun _ => true, amendOk := fun _ => true,
  pushOk := fun _ => true, createPullOk := fun _ => true,
  issueOk := true, issueLabelOk := true, issueNumber := 42, commentOk := true }

def envC1 : Env :=
  { envBase with labels := ["sweep:from B", "alsoTargeting:B", "alsoTargeting:C"] }

def envC3 : Env :=
  { envBase with labels := ["alsoTargeting:B", "sweep:from B"] }

def envC5 : Env := { envBase with labels := ["sweep:done"] }

def envC3w : Env := { envBase with labels := ["alsoTargeting:B"] }

def wC9 : World := { wOk with commentOk := false }

def wC7 : World := { wOk with cherryOk := fun _ => false }

/-!
Theorems.
-/

/-!
Helper lemmas.
-/

theorem mem_insertOne {α : Type} [DecidableEq α] (acc : List α) (x a : α) :
    a ∈ insertOne acc x ↔ a ∈ acc ∨ a = x := by
  unfold insertOne
  by_cases h : x ∈ acc
  · simp only [if_pos h]
    constructor
    · exact Or.inl
    · rintro (h1 | rfl)
      · exact h1
      · exact h
  · simp [if_neg h, List.mem_append]

theorem mem_insertAll {α : Type} [DecidableEq α] (acc xs : List α) (a : α) :
    a ∈ insertAll acc xs ↔ a ∈ acc ∨ a ∈ xs := by
  induction xs generalizing acc with
  | nil => simp [insertAll]
  | cons x xs ih =>
      have : insertAll acc (x :: xs) = insertAll (insertOne acc x) xs := rfl
      rw [this, ih, mem_insertOne]
      simp [List.mem_cons]
      tauto

theorem resolveRulesGo_ok (pkgs : List String) (rules : List (String × List String))
    (acc : List String) (h : ∀ pr ∈ rules, (compileRe pr.1).isSome) :
    ∃ S, resolveRulesGo pkgs rules acc = Except.ok S ∧
      ∀ b, b ∈ S ↔ b ∈ acc ∨ ∃ pr ∈ rules, ruleApplies pkgs pr.1 = true ∧ b ∈ pr.2 := by
  induction rules generalizing acc with
  | nil => exact ⟨acc, rfl, by simp⟩
  | cons pr rest ih =>
      obtain ⟨rule, branches⟩ := pr
      obtain ⟨p, hp⟩ := Option.isSome_iff_exists.mp (h (rule, branches) (by simp))
      have happ : ruleApplies pkgs rule = ruleGuard pkgs p := by
        simp [ruleApplies, hp]
      obtain ⟨S, hS, hmem⟩ := ih (if ruleGuard pkgs p then insertAll acc branches else acc)
        (fun q hq => h q (List.mem_cons_of_mem _ hq))
      refine ⟨S, by simp [resolveRulesGo, hp, hS], ?_⟩
      intro b
      rw [hmem b]
      by_cases hg : ruleGuard pkgs p = true
      · rw [if_pos hg, mem_insertAll]
        constructor
        · rintro ((ha | hb) | ⟨q, hq, hqa, hqb⟩)
          · exact Or.inl ha
          · exact Or.inr ⟨(rule, branches), by simp, by rw [happ]; exact hg, hb⟩
          · exact Or.inr ⟨q, List.mem_cons_of_mem _ hq, hqa, hqb⟩
        · rintro (ha | ⟨q, hq, hqa, hqb⟩)
          · exact Or.inl (Or.inl ha)
          · rcases List.mem_cons.mp hq with heq | hq'
            · cases heq
              exact Or.inl (Or.inr hqb)
            · exact Or.inr ⟨q, hq', hqa, hqb⟩
      · rw [if_neg hg]
        constructor
        · rintro (ha | ⟨q, hq, hqa, hqb⟩)
          · exact Or.inl ha
          · exact Or.inr ⟨q, List.mem_cons_of_mem _ hq, hqa, hqb⟩
        · rintro (ha | ⟨q, hq, hqa, hqb⟩)
          · exact Or.inl ha
          · rcases List.mem_cons.mp hq with heq | hq'
            · cases heq
              rw [happ] at hqa
              exact absurd hqa hg
            · exact Or.inr ⟨q, hq', hqa, hqb⟩

theorem resolveRulesGo_error (pkgs : List String)
    (rules : List (String × List String)) (pr : String × List String)
    (hmem : pr ∈ rules) (hbad : compileRe pr.1 = none) :
    ∀ acc, ∃ r, resolveRulesGo pkgs rules acc = Except.error r ∧ compileRe r = none := by
  induction rules with
  | nil => cases hmem
  | cons hd rest ih =>
      intro acc
      obtain ⟨rule, branches⟩ := hd
      by_cases hc : compileRe rule = none
      · exact ⟨rule, by simp [resolveRulesGo, hc], hc⟩
      · obtain ⟨p, hp⟩ := Option.ne_none_iff_exists.mp hc
        rcases List.mem_cons.mp hmem with rfl | hmem'
        · exact absurd hbad hc
        · have := ih hmem' (if ruleGuard pkgs p then insertAll acc branches else acc)
          obtain ⟨r, hr, hrb⟩ := this
          exact ⟨r, by simp [resolveRulesGo, ← hp, hr], hrb⟩

theorem scanStep_none (ls : List String) (h : ∃ l ∈ ls, strStartsWith l "sweptFrom:" = true) :
    ∀ excl incl, scanStep ls excl incl = none := by
  induction ls with
  | nil => simp at h
  | cons l rest ih =>
      intro excl incl
      by_cases hl : strStartsWith l "sweptFrom:" = true
      · simp [scanStep, hl]
      · obtain ⟨l2, hl2, hs⟩ := h
        rcases List.mem_cons.mp hl2 with heq | hmem
        · cases heq
          exact absurd hs hl
        · simp only [scanStep]
          rw [if_neg hl]
          exact ih ⟨l2, hmem, hs⟩ _ _

theorem publishBranch_good (env : Env) (w : World) (prId : Nat)
    (excl : List PyVal) (t : String) :
    (publishBranch env w prId excl t).good =
      if goodPred env w excl t then [t] else [] := by
  unfold publishBranch goodPred
  by_cases hx : excludedTest excl t = true
  · simp [hx]
  · by_cases hr : w.createRefOk t = true
    · by_cases hf : branchFailed env w t = true
      · simp [hx, hr, hf]
      · by_cases hp : w.createPullOk t = true <;>
          simp [hx, hr, hf, hp]
    · simp [hx, hr]

theorem publishBranch_failedRecs (env : Env) (w : World) (prId : Nat)
    (excl : List PyVal) (t : String) :
    (publishBranch env w prId excl t).failedRecs =
      if failPred env w excl t then
        [(t, env.merge_commit, recTextFor env w prId t)] else [] := by
  unfold publishBranch failPred recTextFor
  by_cases hx : excludedTest excl t = true
  · simp [hx]
  · by_cases hr : w.createRefOk t = true
    · by_cases hf : branchFailed env w t = true
      · simp [hx, hr, hf]
      · by_cases hp : w.createPullOk t = true <;>
          simp [hx, hr, hf, hp]
    · simp [hx, hr]

theorem publishLoop_good (env : Env) (w : World) (prId : Nat)
    (excl : List PyVal) (ts : List String) :
    (publishLoop env w prId excl ts).good =
      ts.filter (goodPred env w excl) := by
  induction ts with
  | nil => rfl
  | cons t ts ih =>
      simp only [publishLoop, ih, publishBranch_good, List.filter_cons]
      by_cases hg : goodPred env w excl t = true <;> simp [hg]

theorem publishLoop_failedRecs (env : Env) (w : World) (prId : Nat)
    (excl : List PyVal) (ts : List String) :
    (publishLoop env w prId excl ts).failedRecs =
      (ts.filter (failPred env w excl)).map
        (fun t => (t, env.merge_commit, recTextFor env w prId t)) := by
  induction ts with
  | nil => rfl
  | cons t ts ih =>
      simp only [publishLoop, ih, publishBranch_failedRecs, List.filter_cons]
      by_cases hg : failPred env w excl t = true <;> simp [hg]

theorem applyTrace_shape (env : Env) (w : World) (prId : Nat) (t : String) :
    ∀ e ∈ applyTrace env w prId t,
      e.isSetLabelsE = false ∧ e.isCreateComment = false ∧
        e.isCreatePullE = false := by
  intro e he
  unfold applyTrace at he
  by_cases hs1 : env.strategy = "merge"
  · simp [hs1] at he
    subst he
    exact ⟨rfl, rfl, rfl⟩
  · by_cases hs2 : env.strategy = "cherry-pick"
    · by_cases hc : w.cherryOk t = true
      · by_cases ha : w.amendOk t = true
        · simp [hs1, hs2, hc, ha] at he
          rcases he with rfl | rfl | rfl | rfl | rfl | rfl <;> exact ⟨rfl, rfl, rfl⟩
        · simp [hs1, hs2, hc, ha] at he
          rcases he with rfl | rfl | rfl | rfl | rfl <;> exact ⟨rfl, rfl, rfl⟩
      · simp [hs1, hs2, hc] at he
        rcases he with rfl | rfl | rfl | rfl | rfl <;> exact ⟨rfl, rfl, rfl⟩
    · simp [hs1, hs2] at he

theorem publishBranch_trace_shape (env : Env) (w : World) (prId : Nat)
    (excl : List PyVal) (t : String) :
    ∀ e ∈ (publishBranch env w prId excl t).trace,
      e.isSetLabelsE = false ∧ e.isCreateComment = false := by
  intro e he
  unfold publishBranch at he
  by_cases hx : excludedTest excl t = true
  · simp [hx] at he
  · by_cases hr : w.createRefOk t = true
    · by_cases hf : branchFailed env w t = true
      · simp [hx, hr, hf] at he
        rcases he with rfl | hmem
        · exact ⟨rfl, rfl⟩
        · exact ⟨(applyTrace_shape env w prId t e hmem).1,
                 (applyTrace_shape env w prId t e hmem).2.1⟩
      · by_cases hp : w.createPullOk t = true
        · simp [hx, hr, hf, hp] at he
          rcases he with rfl | hmem | rfl | rfl
          · exact ⟨rfl, rfl⟩
          · exact ⟨(applyTrace_shape env w prId t e hmem).1,
                   (applyTrace_shape env w prId t e hmem).2.1⟩
          · exact ⟨rfl, rfl⟩
          · exact ⟨rfl, rfl⟩
        · simp [hx, hr, hf, hp] at he
          rcases he with rfl | hmem | rfl
          · exact ⟨rfl, rfl⟩
          · exact ⟨(applyTrace_shape env w prId t e hmem).1,
                   (applyTrace_shape env w prId t e hmem).2.1⟩
          · exact ⟨rfl, rfl⟩
    · simp [hx, hr] at he
      subst he
      exact ⟨rfl, rfl⟩

theorem publishLoop_trace_shape (env : Env) (w : World) (prId : Nat)
    (excl : List PyVal) (ts : List String) :
    ∀ e ∈ (publishLoop env w prId excl ts).trace,
      e.isSetLabelsE = false ∧ e.isCreateComment = false := by
  induction ts with
  | nil => simp [publishLoop]
  | cons t ts ih =>
      intro e he
      simp only [publishLoop, List.mem_append] at he
      rcases he with he | he
      · exact publishBranch_trace_shape env w prId excl t e he
      · exact ih e he

theorem createPull_mem_publishBranch (env : Env) (w : World) (prId : Nat)
    (excl : List PyVal) (t ti bo hd ba : String)
    (hmem : Eff.createPull ti bo hd ba ∈ (publishBranch env w prId excl t).trace) :
    ba = t ∧ excludedTest excl t = false ∧ w.createRefOk t = true ∧
      branchFailed env w t = false := by
  unfold publishBranch at hmem
  by_cases hx : excludedTest excl t = true
  · simp [hx] at hmem
  · by_cases hr : w.createRefOk t = true
    · by_cases hf : branchFailed env w t = true
      · simp [hx, hr, hf] at hmem
        have := (applyTrace_shape env w prId t _ hmem).2.2
        simp [Eff.isCreatePullE] at this
      · by_cases hp : w.createPullOk t = true
        · simp [hx, hr, hf, hp] at hmem
          rcases hmem with h | h
          · have := (applyTrace_shape env w prId t _ h).2.2
            simp [Eff.isCreatePullE] at this
          · exact ⟨h.2.2.2, by simp [hx], hr, by simp [hf]⟩
        · simp [hx, hr, hf, hp] at hmem
          rcases hmem with h | h
          · have := (applyTrace_shape env w prId t _ h).2.2
            simp [Eff.isCreatePullE] at this
          · exact ⟨h.2.2.2, by simp [hx], hr, by simp [hf]⟩
    · simp [hx, hr] at hmem

theorem createPull_mem_publishLoop (env : Env) (w : World) (prId : Nat)
    (excl : List PyVal) (ts : List String) (ti bo hd ba : String)
    (hmem : Eff.createPull ti bo hd ba ∈ (publishLoop env w prId excl ts).trace) :
    ba ∈ ts ∧ excludedTest excl ba = false ∧ w.createRefOk ba = true ∧
      branchFailed env w ba = false := by
  induction ts with
  | nil => simp [publishLoop] at hmem
  | cons t ts ih =>
      simp only [publishLoop, List.mem_append] at hmem
      rcases hmem with h | h
      · obtain ⟨rfl, h2, h3, h4⟩ :=
          createPull_mem_publishBranch env w prId excl t ti bo hd ba h
        exact ⟨List.mem_cons_self _ _, h2, h3, h4⟩
      · obtain ⟨h1, h2, h3, h4⟩ := ih h
        exact ⟨List.mem_cons_of_mem _ h1, h2, h3, h4⟩

theorem reporter_trace_shape (env : Env) (w : World) (targets good : List String)
    (fr : List (String × String × String)) :
    ∀ e ∈ reporterTrace env w targets good fr, e.isSetLabelsE = false := by
  intro e he
  unfold reporterTrace at he
  by_cases h1 : targets.isEmpty = true
  · simp [h1] at he
  · by_cases h2 : fr.isEmpty = true
    · simp [h1, h2] at he
      subst he
      rfl
    · by_cases h3 : w.issueOk = true
      · by_cases h4 : w.issueLabelOk = true
        · simp [h1, h2, h3, h4] at he
          rcases he with rfl | rfl | rfl | rfl <;> rfl
        · simp [h1, h2, h3, h4] at he
          rcases he with rfl | rfl | rfl <;> rfl
      · simp [h1, h2, h3] at he
        rcases he with rfl | rfl <;> rfl

theorem reporter_comment_count (env : Env) (w : World) (targets good : List String)
    (fr : List (String × String × String)) :
    ((reporterTrace env w targets good fr).filter Eff.isCreateComment).length ≤ 1 := by
  unfold reporterTrace
  by_cases h1 : targets.isEmpty = true
  · simp [h1]
  · by_cases h2 : fr.isEmpty = true
    · simp [h1, h2, Eff.isCreateComment, List.filter]
    · by_cases h3 : w.issueOk = true
      · by_cases h4 : w.issueLabelOk = true
        · simp [h1, h2, h3, h4, Eff.isCreateComment, List.filter]
        · simp [h1, h2, h3, h4, Eff.isCreateComment, List.filter]
      · simp [h1, h2, h3, Eff.isCreateComment, List.filter]

theorem strHasSub_right (a mid : String) : strHasSub (a ++ mid) mid := by
  simp only [strHasSub, String.data_append]
  simpa using List.infix_append a.data mid.data []

theorem strHasSub_extend (a x mid : String) (h : strHasSub a mid) :
    strHasSub (a ++ x) mid := by
  simp only [strHasSub, String.data_append]
  exact h.trans (by simpa using List.infix_append ([] : List Char) a.data x.data)

theorem strHasSub_extendl (x a mid : String) (h : strHasSub a mid) :
    strHasSub (x ++ a) mid := by
  simp only [strHasSub, String.data_append]
  exact h.trans (by simpa [List.append_assoc] using
    List.infix_append x.data a.data ([] : List Char))

theorem fixerText_has_commit (env : Env) (prId : Nat) (t body : String) :
    strHasSub (fixerText env prId t body) env.merge_commit := by
  unfold fixerText
  iterate 55 apply strHasSub_extend
  exact strHasSub_right _ _

theorem fixerText_has_branch (env : Env) (prId : Nat) (t body : String) :
    strHasSub (fixerText env prId t body) t := by
  unfold fixerText
  iterate 53 apply strHasSub_extend
  exact strHasSub_right _ _

theorem pullFailText_has_commit (env : Env) (t : String) :
    strHasSub (pullFailText env t) env.merge_commit := by
  unfold pullFailText
  apply strHasSub_extend
  apply strHasSub_extend
  apply strHasSub_extendl
  unfold cherryPickBranchName
  apply strHasSub_extend
  apply strHasSub_extend
  exact strHasSub_right _ _

theorem pullFailText_has_branch (env : Env) (t : String) :
    strHasSub (pullFailText env t) t := by
  unfold pullFailText
  exact strHasSub_right _ _

theorem recTextFor_has_commit (env : Env) (w : World) (prId : Nat) (t : String) :
    strHasSub (recTextFor env w prId t) env.merge_commit := by
  unfold recTextFor
  split
  · exact fixerText_has_commit env prId t _
  · exact pullFailText_has_commit env t

theorem recTextFor_has_branch (env : Env) (w : World) (prId : Nat) (t : String) :
    strHasSub (recTextFor env w prId t) t := by
  unfold recTextFor
  split
  · exact fixerText_has_branch env prId t _
  · exact pullFailText_has_branch env t

theorem ruleApplies_iff (pkgs : List String) (rule : String) :
    ruleApplies pkgs rule = true ↔
      ∃ p, compileRe rule = some p ∧ ruleGuard pkgs p = true := by
  unfold ruleApplies
  cases h : compileRe rule with
  | none => simp
  | some p => simp

theorem ruleGuard_empty (p : Re) : ruleGuard [] p = false := rfl

/-- Claim C4: a rule's target branches enter the rule-derived candidate
set iff the changed-path set is non-empty and every changed path matches
the rule's pattern; an empty changed-path set yields an empty
rule-derived set.  Stated for rule tables whose patterns all compile
(a malformed pattern aborts resolution instead, see C2). -/

theorem C4_rule_resolution (rules : List (String × List String))
    (pkgs : List String) (h : ∀ pr ∈ rules, (compileRe pr.1).isSome) :
    ∃ S, resolveRules rules pkgs = Except.ok S ∧
      (∀ b, b ∈ S ↔ ∃ pr ∈ rules, ∃ p, compileRe pr.1 = some p ∧
        ruleGuard pkgs p = true ∧ b ∈ pr.2) ∧
      (pkgs = [] → S = []) := by
  obtain ⟨S, hS, hmem⟩ := resolveRulesGo_ok pkgs rules [] h
  refine ⟨S, hS, ?_, ?_⟩
  · intro b
    rw [hmem b]
    simp only [List.not_mem_nil, false_or]
    constructor
    · rintro ⟨pr, hpr, happ, hb⟩
      obtain ⟨p, hp, hg⟩ := (ruleApplies_iff pkgs pr.1).mp happ
      exact ⟨pr, hpr, p, hp, hg, hb⟩
    · rintro ⟨pr, hpr, p, hp, hg, hb⟩
      exact ⟨pr, hpr, (ruleApplies_iff pkgs pr.1).mpr ⟨p, hp, hg⟩, hb⟩
  · rintro rfl
    rw [List.eq_nil_iff_forall_not_mem]
    intro b hb
    obtain ⟨pr, _, happ, _⟩ := ((hmem b).mp hb).resolve_left (by simp)
    obtain ⟨p, _, hg⟩ := (ruleApplies_iff [] pr.1).mp happ
    rw [ruleGuard_empty] at hg
    cases hg

/-- Witness for C4 at the spec's own scenario: the rule
`^Detector/.* -> rel-7` with two changed paths that both match. -/

theorem C4_witness :
    ∃ S, resolveRules [("^Detector/.*", ["rel-7"])]
        ["Detector/Calo/x.cpp", "Detector/Track/y.cpp"] = Except.ok S ∧
      (∀ b, b ∈ S ↔ ∃ pr ∈ [("^Detector/.*", ["rel-7"])], ∃ p,
        compileRe pr.1 = some p ∧
        ruleGuard ["Detector/Calo/x.cpp", "Detector/Track/y.cpp"] p = true ∧
        b ∈ pr.2) ∧
      (["Detector/Calo/x.cpp", "Detector/Track/y.cpp"] = ([] : List String) →
        S = []) :=
  C4_rule_resolution _ _ (by decide)

/-- Claim C2 counterexample: with the malformed pattern `(` in the rule
table, resolution raises `re.error` (models the unguarded `re.compile`
at source line 283) instead of skipping that rule; the well-formed rule
`ok -> rel-8` is therefore never evaluated and no candidate set is
produced, although on its own it would contribute `rel-8`. -/

theorem C2_counterexample :
    resolveRules [("(", ["rel-7"]), ("ok", ["rel-8"])] ["okpath"] =
      Except.error "(" ∧
    resolveRules [("ok", ["rel-8"])] ["okpath"] = Except.ok ["rel-8"] := by
  constructor <;> rfl

/-- Claim C2 amended: a malformed pattern anywhere in the rule table
makes the whole resolution raise (`Except.error`), aborting resolution
for the change record — no per-rule skip happens. -/

theorem C2_amended (rules : List (String × List String)) (pkgs : List String)
    (pr : String × List String) (hmem : pr ∈ rules)
    (hbad : compileRe pr.1 = none) :
    ∃ r, resolveRules rules pkgs = Except.error r ∧ compileRe r = none :=
  resolveRulesGo_error pkgs rules pr hmem hbad []

/-- Witness for the amended C2. -/

theorem C2_amended_witness :
    ∃ r, resolveRules [("(", ["rel-7"]), ("ok", ["rel-8"])] ["okpath"] =
      Except.error r ∧ compileRe r = none :=
  C2_amended _ _ ("(", ["rel-7"]) (by decide) (by decide)

/-- Claim C1, evaluated on the code at the failing input: the label
`sweep:from B` puts the **bytes** value `b"B"` into the exclusion set
(source line 257), the `alsoTargeting` labels make the inclusion set
`{B, C}`, and since `bytes == str` is always false in Python 3 the
exclusion test at line 318 never fires: the sweeper publishes to **both**
`B` and `C`, although the final target set prescribed by the
specification is `{C}`. -/

theorem C1_code_behavior :
    scanLabels ["sweep:from B", "alsoTargeting:B", "alsoTargeting:C"] =
      some ([PyVal.bytes "B"], ["B", "C"]) ∧
    (cherryPickPr envC1 wOk).good = ["B", "C"] ∧
    "B" ∈ (cherryPickPr envC1 wOk).good ∧
    specFinalTargets [] ["B", "C"] ["B"] = ["C"] := by
  refine ⟨by decide, by decide, by decide, by decide⟩

/-- Claim C6, evaluated on the code at the failing input: the label
`alsoTargeting:` with an **empty** branch value splits into exactly two
fields (`["alsoTargeting", ""]`), so the code takes the well-formed arm
and adds the empty string to the inclusion set, although the warning arm
of the source (line 274) reads "has empty 'alsoTargeting:' label ->
ignore" — only a value with a further colon (three or more fields) is
ignored.  A well-formed value is added as the claim states. -/

theorem C6_code_behavior :
    scanLabels ["alsoTargeting:"] = some ([], [""]) ∧
    scanLabels ["alsoTargeting:a:b"] = some ([], []) ∧
    scanLabels ["alsoTargeting:rel-7"] = some ([], ["rel-7"]) := by
  refine ⟨by decide, by decide, by decide⟩

/-- Claim C3 counterexample: with inclusion set `{B}` and exclusion set
`{B}` (from `sweep:from B`), the final target set after subtracting the
exclusion set is empty, so the claim prescribes the disposition
`ignore`; but the code computes the disposition from the target set
**before** any exclusion (source line 299) and writes `sweep:done`. -/

theorem C3_counterexample :
    (cherryPickPr envC3 wOk).trace.filter Eff.isSetLabelsE =
      [Eff.setLabels ["alsoTargeting:B", "sweep:from B", "sweep:done"]] ∧
    specFinalTargets [] ["B"] ["B"] = [] := by
  refine ⟨by decide, by decide⟩

/-- Claim C5 counterexample: on a record already labelled `sweep:done`
the run does abort, but before reading the labels the code has already
called `repo.get_pull` (source line 192) and `gh.get_user` (line 219) —
API calls that are neither label nor commit retrieval — so "zero API
calls beyond label/commit retrieval" is false as stated. -/

theorem C5_counterexample :
    (cherryPickPr envC5 wOk).trace.filter (fun e => ! e.isLabelCommitRead) =
      [Eff.getPull 7, Eff.getUser "alice"] ∧
    [Eff.getPull 7, Eff.getUser "alice"] ≠ ([] : List Eff) := by
  refine ⟨by decide, by decide⟩

/-- Claim C8: with the dry-run flag set, the run stops before the
disposition-label write (source line 307): no mutating call of any kind
is emitted — no labels set, no refs, pull requests, issues or comments
created — on every path through the function. -/

theorem C8_dry_run (env : Env) (w : World) (h : env.dry_run = true) :
    (cherryPickPr env w).trace.filter Eff.isWrite = [] := by
  unfold cherryPickPr
  by_cases h1 : w.commitOk = true
  · simp only [h1]
    cases hid : findPrId env.gitShowOut with
    | none => simp [abortResult, Eff.isWrite]
    | some prId =>
        by_cases h3 : w.prOk = true
        · simp only [h3]
          by_cases h4 : "sweep:done" ∈ env.labels
          · simp [h4, abortResult, Eff.isWrite]
          · by_cases h5 : "sweep:ignore" ∈ env.labels
            · simp [h4, h5, abortResult, Eff.isWrite]
            · cases hscan : scanLabels env.labels with
              | none => simp [h4, h5, hscan, abortResult, Eff.isWrite]
              | some pair =>
                  obtain ⟨excl, incl⟩ := pair
                  cases hres : resolveRules env.rules env.changedFiles with
                  | error r =>
                      simp [h4, h5, hscan, hres, abortResult, Eff.isWrite]
                  | ok ruleT =>
                      simp [h4, h5, hscan, hres, h, abortResult, Eff.isWrite]
        · simp [h3, abortResult, Eff.isWrite]
  · simp [h1, abortResult, Eff.isWrite]

/-- Witness for C8: a concrete dry run emits no write. -/

theorem C8_witness :
    (cherryPickPr { envBase with dry_run := true } wOk).trace.filter
      Eff.isWrite = [] :=
  C8_dry_run { envBase with dry_run := true } wOk rfl

/-- Claim C5 amended: a record holding a `sweep:done`, `sweep:ignore` or
`sweptFrom:` label makes the run abort with zero side effects — no
mutating API call at all (so re-running on a `done`-labelled record adds
no labels) — the only calls made are read-only retrievals (commit,
merge log, pull-request handle, user, commits, labels). -/

theorem C5_amended (env : Env) (w : World)
    (h : "sweep:done" ∈ env.labels ∨ "sweep:ignore" ∈ env.labels ∨
         ∃ l ∈ env.labels, strStartsWith l "sweptFrom:" = true) :
    (cherryPickPr env w).trace.filter Eff.isWrite = [] ∧
    (cherryPickPr env w).good = [] ∧
    (cherryPickPr env w).failedRecs = [] := by
  unfold cherryPickPr
  by_cases h1 : w.commitOk = true
  · simp only [h1]
    cases hid : findPrId env.gitShowOut with
    | none => simp [abortResult, Eff.isWrite]
    | some prId =>
        by_cases h3 : w.prOk = true
        · simp only [h3]
          by_cases h4 : "sweep:done" ∈ env.labels
          · simp [h4, abortResult, Eff.isWrite]
          · by_cases h5 : "sweep:ignore" ∈ env.labels
            · simp [h4, h5, abortResult, Eff.isWrite]
            · have hsw : ∃ l ∈ env.labels, strStartsWith l "sweptFrom:" = true := by
                rcases h with h | h | h
                · exact absurd h h4
                · exact absurd h h5
                · exact h
              have hscan : scanLabels env.labels = none :=
                scanStep_none _ hsw _ _
              simp [h4, h5, hscan, abortResult, Eff.isWrite]
        · simp [h3, abortResult, Eff.isWrite]
  · simp [h1, abortResult, Eff.isWrite]

/-- Witness for the amended C5 on a record labelled `sweep:done`. -/

theorem C5_amended_witness :
    (cherryPickPr envC5 wOk).trace.filter Eff.isWrite = [] ∧
    (cherryPickPr envC5 wOk).good = [] ∧
    (cherryPickPr envC5 wOk).failedRecs = [] :=
  C5_amended envC5 wOk (Or.inl (by decide))

/-- Claim C3 amended: for a record not aborted by a done/ignore/swept-from
label (and whose rule patterns all compile), in a non-dry run the
disposition label is written exactly once per run — one `set_labels`
call — and the disposition is `ignore` exactly when the target set
**before subtracting the exclusion set** (rule-derived ∪ explicit
inclusions) is empty, `done` otherwise.  The code never subtracts the
exclusion set for the disposition (and, per C1, the exclusion set never
matches anything at all). -/

theorem C3_amended (env : Env) (w : World) (prId : Nat)
    (h1 : w.commitOk = true) (h2 : findPrId env.gitShowOut = some prId)
    (h3 : w.prOk = true) (h4 : "sweep:done" ∉ env.labels)
    (h5 : "sweep:ignore" ∉ env.labels)
    (excl : List PyVal) (incl : List String)
    (h6 : scanLabels env.labels = some (excl, incl))
    (ruleT : List String)
    (h7 : resolveRules env.rules env.changedFiles = Except.ok ruleT)
    (h8 : env.dry_run = false) :
    ∃ ls, (cherryPickPr env w).trace.filter Eff.isSetLabelsE =
        [Eff.setLabels ls] ∧
      ("sweep:ignore" ∈ ls ↔ insertAll incl ruleT = []) ∧
      ("sweep:done" ∈ ls ↔ insertAll incl ruleT ≠ []) := by
  refine ⟨insertOne env.labels
    (if (insertAll incl ruleT).isEmpty then "sweep:ignore" else "sweep:done"),
    ?_, ?_, ?_⟩
  · have hlp : (publishLoop env w prId excl (insertAll incl ruleT)).trace.filter
        Eff.isSetLabelsE = [] :=
      List.filter_eq_nil_iff.mpr (fun e he => by
        simp [(publishLoop_trace_shape env w prId excl _ e he).1])
    have hrep : ∀ g fr, (reporterTrace env w (insertAll incl ruleT) g fr).filter
        Eff.isSetLabelsE = [] := fun g fr =>
      List.filter_eq_nil_iff.mpr (fun e he => by
        simp [reporter_trace_shape env w _ g fr e he])
    unfold cherryPickPr
    simp only [h1, h2, h3, Bool.not_true, Bool.false_eq_true, if_false,
      if_neg h4, if_neg h5, h6, h7, h8]
    simp [List.filter_append, hlp, hrep, Eff.isSetLabelsE]
  · rw [mem_insertOne]
    by_cases he : (insertAll incl ruleT).isEmpty = true
    · simp [he, List.isEmpty_iff.mp he, h5]
    · rw [if_neg he]
      simp only [List.isEmpty_iff] at he
      simp [he, h5]
  · rw [mem_insertOne]
    by_cases he : (insertAll incl ruleT).isEmpty = true
    · simp [he, List.isEmpty_iff.mp he, h4]
    · rw [if_neg he]
      simp only [List.isEmpty_iff] at he
      simp [he, h4]

/-- Witness for the amended C3 at a concrete record with one explicit
inclusion. -/

theorem C3_amended_witness :
    ∃ ls, (cherryPickPr envC3w wOk).trace.filter Eff.isSetLabelsE =
        [Eff.setLabels ls] ∧
      ("sweep:ignore" ∈ ls ↔ insertAll ["B"] [] = []) ∧
      ("sweep:done" ∈ ls ↔ insertAll ["B"] [] ≠ []) :=
  C3_amended envC3w wOk 7 rfl (by decide) rfl (by decide) (by decide)
    [] ["B"] (by decide) [] rfl rfl

/-- Claim C9: a forge-API failure while posting the sweep-summary
comment or the failure-tracking issue is caught by the `except` at
source line 506 and only logged: for every world — in particular one in
which posting fails — the function returns normally (no exception
escapes, provided the rule patterns compile, see C2), and the comment
is attempted at most once (never retried). -/

theorem C9_report_failure_swallowed (env : Env) (w : World)
    (h : ∀ pr ∈ env.rules, (compileRe pr.1).isSome) :
    (cherryPickPr env w).raised = none ∧
    ((cherryPickPr env w).trace.filter Eff.isCreateComment).length ≤ 1 := by
  unfold cherryPickPr
  by_cases h1 : w.commitOk = true
  · simp only [h1]
    cases hid : findPrId env.gitShowOut with
    | none => simp [abortResult, Eff.isCreateComment]
    | some prId =>
        by_cases h3 : w.prOk = true
        · simp only [h3]
          by_cases h4 : "sweep:done" ∈ env.labels
          · simp [h4, abortResult, Eff.isCreateComment]
          · by_cases h5 : "sweep:ignore" ∈ env.labels
            · simp [h4, h5, abortResult, Eff.isCreateComment]
            · cases hscan : scanLabels env.labels with
              | none => simp [h4, h5, hscan, abortResult, Eff.isCreateComment]
              | some pair =>
                  obtain ⟨excl, incl⟩ := pair
                  obtain ⟨S, hS, _⟩ :=
                    resolveRulesGo_ok env.changedFiles env.rules [] h
                  cases hres : resolveRules env.rules env.changedFiles with
                  | error r =>
                      rw [resolveRules, hS] at hres
                      cases hres
                  | ok ruleT =>
                      by_cases hdry : env.dry_run = true
                      · simp [h4, h5, hscan, hres, hdry, abortResult,
                          Eff.isCreateComment]
                      · have hlp : (publishLoop env w prId excl
                            (insertAll incl ruleT)).trace.filter
                            Eff.isCreateComment = [] :=
                          List.filter_eq_nil_iff.mpr (fun e he => by
                            simp [(publishLoop_trace_shape env w prId excl
                              _ e he).2])
                        refine ⟨by simp [h4, h5, hscan, hres, hdry], ?_⟩
                        simp only [h4, h5, hscan, hres, hdry, Bool.not_true,
                          Bool.false_eq_true, if_false, if_neg h4, if_neg h5]
                        simp only [List.filter_append, List.filter_cons,
                          List.filter_nil, Eff.isCreateComment, hlp,
                          List.length_append, List.nil_append,
                          List.append_nil, if_false, List.length_nil]
                        simpa using reporter_comment_count env w
                          (insertAll incl ruleT) _ _
        · simp [h3, abortResult, Eff.isCreateComment]
  · simp [h1, abortResult, Eff.isCreateComment]

/-- Witness for C9 in a world where posting the comment fails. -/

theorem C9_witness :
    (cherryPickPr envBase wC9).raised = none ∧
    ((cherryPickPr envBase wC9).trace.filter Eff.isCreateComment).length ≤ 1 :=
  C9_report_failure_swallowed envBase wC9 (by decide)

/-- Claim C7: when any publish step for a target branch fails (ref
creation, apply — which subsumes the amend and push steps of the
cherry-pick strategy — or request creation), the branch lands in the
failed set and not in the succeeded set, its recovery text contains the
literal merge-commit hash and the target branch name, every other
branch's outcome is decided by its own predicate alone (full
isolation), and after a ref-creation or apply failure no request
creation is even attempted for that branch. -/

theorem C7_publish_failure (env : Env) (w : World) (prId : Nat)
    (excl : List PyVal) (ts : List String) (t : String)
    (hmem : t ∈ ts) (hx : excludedTest excl t = false)
    (hfail : w.createRefOk t = false ∨ branchFailed env w t = true ∨
             w.createPullOk t = false) :
    t ∉ (publishLoop env w prId excl ts).good ∧
    (∃ rec ∈ (publishLoop env w prId excl ts).failedRecs,
       rec.1 = t ∧ strHasSub rec.2.2 env.merge_commit ∧ strHasSub rec.2.2 t) ∧
    (∀ u ∈ ts, u ≠ t →
       (u ∈ (publishLoop env w prId excl ts).good ↔
         goodPred env w excl u = true)) ∧
    (w.createRefOk t = false ∨ branchFailed env w t = true →
       ∀ e ∈ (publishBranch env w prId excl t).trace,
         e.isCreatePullE = false) := by
  have hgp : goodPred env w excl t = false := by
    unfold goodPred
    rcases hfail with hf | hf | hf <;> simp [hx, hf]
  have hfp : failPred env w excl t = true := by
    unfold failPred
    rcases hfail with hf | hf | hf <;> simp [hx, hf]
  refine ⟨?_, ?_, ?_, ?_⟩
  · intro hc
    rw [publishLoop_good, List.mem_filter, hgp] at hc
    cases hc.2
  · rw [publishLoop_failedRecs]
    refine ⟨(t, env.merge_commit, recTextFor env w prId t), ?_, rfl,
      recTextFor_has_commit env w prId t, recTextFor_has_branch env w prId t⟩
    rw [List.mem_map]
    exact ⟨t, List.mem_filter.mpr ⟨hmem, hfp⟩, rfl⟩
  · intro u hu _
    rw [publishLoop_good, List.mem_filter]
    exact ⟨And.right, fun hg => ⟨hu, hg⟩⟩
  · intro hcase e he
    cases e <;> try rfl
    case createPull ti bo hd ba =>
      exfalso
      obtain ⟨hba, hxe, hre, hbe⟩ :=
        createPull_mem_publishBranch env w prId excl t ti bo hd ba he
      rcases hcase with hc | hc
      · rw [hre] at hc
        cases hc
      · rw [hbe] at hc
        cases hc

/-- Witness for C7: the cherry-pick fails on `rel-7`. -/

theorem C7_witness :
    "rel-7" ∉ (publishLoop envBase wC7 7 [] ["rel-7", "rel-8"]).good ∧
    (∃ rec ∈ (publishLoop envBase wC7 7 [] ["rel-7", "rel-8"]).failedRecs,
       rec.1 = "rel-7" ∧ strHasSub rec.2.2 envBase.merge_commit ∧
       strHasSub rec.2.2 "rel-7") ∧
    (∀ u ∈ ["rel-7", "rel-8"], u ≠ "rel-7" →
       (u ∈ (publishLoop envBase wC7 7 [] ["rel-7", "rel-8"]).good ↔
         goodPred envBase wC7 [] u = true)) ∧
    (wC7.createRefOk "rel-7" = false ∨
       branchFailed envBase wC7 "rel-7" = true →
       ∀ e ∈ (publishBranch envBase wC7 7 [] "rel-7").trace,
         e.isCreatePullE = false) :=
  C7_publish_failure envBase wC7 7 [] ["rel-7", "rel-8"] "rel-7"
    (by decide) (by decide) (Or.inr (Or.inl (by decide)))

/-- Claim C10 (invariants of the publish loop): a branch is never in
both the succeeded and the failed set; a branch the loop's exclusion
test accepts is in neither; and a pull request is (successfully) created
only for branches that end up in the succeeded set. -/

theorem C10_publish_invariants (env : Env) (w : World) (prId : Nat)
    (excl : List PyVal) (ts : List String) :
    (∀ t, ¬ (t ∈ (publishLoop env w prId excl ts).good ∧
       ∃ rec ∈ (publishLoop env w prId excl ts).failedRecs, rec.1 = t)) ∧
    (∀ t, excludedTest excl t = true →
       t ∉ (publishLoop env w prId excl ts).good ∧
       ∀ rec ∈ (publishLoop env w prId excl ts).failedRecs, rec.1 ≠ t) ∧
    (∀ ti bo hd ba,
       Eff.createPull ti bo hd ba ∈ (publishLoop env w prId excl ts).trace →
       w.createPullOk ba = true →
       ba ∈ (publishLoop env w prId excl ts).good) := by
  refine ⟨?_, ?_, ?_⟩
  · rintro t ⟨hg, rec, hrec, hr1⟩
    rw [publishLoop_good, List.mem_filter] at hg
    rw [publishLoop_failedRecs, List.mem_map] at hrec
    obtain ⟨u, hu, hueq⟩ := hrec
    have hut : u = t := by
      rw [← hueq] at hr1
      exact hr1
    subst hut
    rw [List.mem_filter] at hu
    have h1 := hg.2
    have h2 := hu.2
    simp only [goodPred, failPred, Bool.and_eq_true, Bool.or_eq_true,
      Bool.not_eq_true'] at h1 h2
    simp_all
  · intro t hxt
    constructor
    · intro hc
      rw [publishLoop_good, List.mem_filter] at hc
      have h2 := hc.2
      simp [goodPred, hxt] at h2
    · intro rec hrec
      rw [publishLoop_failedRecs, List.mem_map] at hrec
      obtain ⟨u, hu, hueq⟩ := hrec
      rw [List.mem_filter] at hu
      intro heq
      rw [← hueq] at heq
      simp only at heq
      subst heq
      have h2 := hu.2
      simp [failPred, hxt] at h2
  · intro ti bo hd ba hmem hpull
    obtain ⟨hts, hxe, hre, hbe⟩ :=
      createPull_mem_publishLoop env w prId excl ts ti bo hd ba hmem
    rw [publishLoop_good, List.mem_filter]
    exact ⟨hts, by simp [goodPred, hxe, hre, hbe, hpull]⟩
